import Mathlib

/-
Verification of the conducto pipeline helpers (conducto/compose.py and
conducto/pipeline.py) of the st2-docker repository.

Python strings are modelled as Lean `String` (logically a `List Char`),
Python dictionaries as insertion-ordered association lists with unique
keys, and Python lists as Lean lists.  Fallible code returns `Except`.
The mutable pipeline key-value store (`co.data.pipeline`) is modelled by
returning the list of (key, value) writes a call performs.
-/

/-! ## Python string primitives -/

/-- Model of Python `s.split(sep)` for a one-character separator:
`"".split(":") = [""]`, `"a:b".split(":") = ["a", "b"]`, etc. -/
def splitOnChar (sep : Char) : List Char → List (List Char)
  | [] => [[]]
  | c :: rest =>
    let r := splitOnChar sep rest
    if c = sep then [] :: r
    else (c :: r.headD []) :: r.tail

/-- Model of Python `sep.join(parts)` for a one-character separator. -/
def joinChar (sep : Char) (l : List (List Char)) : List Char :=
  List.intercalate [sep] l

/-- Helper for `strContains`: does `needle` occur in `hay` (as a
contiguous run)?  Checks prefixhood at every suffix of `hay`. -/
def strContainsAux (needle : List Char) : List Char → Bool
  | [] => needle.isPrefixOf []
  | c :: t => needle.isPrefixOf (c :: t) || strContainsAux needle t

/-- Model of the Python membership test `needle in hay` on strings:
true iff `needle` occurs contiguously in `hay` (the empty needle always
occurs). -/
def strContains (needle hay : String) : Bool :=
  strContainsAux needle.data hay.data

/-- Escaping of one character as Python `json.dumps` performs it for the
characters that occur in this development (backslash and double quote;
control characters and non-ASCII are out of scope for the inputs used
here). -/
def jsonEscapeChar (c : Char) : List Char :=
  if c = '\\' then ['\\', '\\']
  else if c = '"' then ['\\', '"']
  else [c]

/-- Model of Python `json.dumps` on a single string. -/
def jsonStr (s : String) : String :=
  ⟨'"' :: (s.data.flatMap jsonEscapeChar) ++ ['"']⟩

/-- Model of Python `json.dumps` on a list of strings
(`json.dumps(["a", "b"]) = '["a", "b"]'`). -/
def jsonList (l : List String) : String :=
  "[" ++ String.intercalate (", ") (l.map jsonStr) ++ "]"

/-- Model of Python `pathlib.Path(p).parent` for the normalized POSIX
paths used in this repository (no trailing slash, no `.`/`..` segments,
no doubled separator): drop the last `/`-separated component.  `Path` is
an external library; this definition reproduces its behaviour on such
inputs. -/
def parentDirData (p : List Char) : List Char :=
  let comps := splitOnChar '/' p
  if comps.length ≤ 1 then ['.']
  else
    let r := joinChar '/' comps.dropLast
    if r = [] then ['/'] else r

/-- `parentDirData` lifted to `String`. -/
def parentDir (p : String) : String :=
  ⟨parentDirData p.data⟩

/-! ## compose.py: the document model

`anchored(content, path)` receives the parsed guts of a
docker-compose.yml.  The parts of that dictionary the code touches are
`services` (a dict mapping service name to a service definition that may
carry a `volumes` list of mount strings and a `networks` list of network
names) and the top-level `networks` dict.  A network definition's only
field written by this code is `external` (set to a dict
`name: <template>`; we record the template string). -/

/-- One value of `content["services"]`: the fields of a service
definition that compose.py reads or writes.  A missing `volumes` key
(Python `KeyError`, caught and ignored) or a missing `networks` key
(created by `setdefault`) is `none`. -/
structure ServiceDef where
  volumes : Option (List String)
  networks : Option (List String)
deriving DecidableEq

/-- One value of `content["networks"]`: compose.py only ever writes the
`external` key of a network definition, with value a dict carrying an
external `name`; we record that name. -/
structure NetworkDef where
  external : Option String
deriving DecidableEq

/-- The guts of a docker-compose.yml, as far as compose.py touches them:
`services` (insertion-ordered dict with unique keys) and the optional
top-level `networks` dict. -/
structure ComposeDoc where
  services : List (String × ServiceDef)
  networks : Option (List (String × NetworkDef))
deriving DecidableEq

/-! ## compose.py: `anchored` -/

/-- `items[0]` after `items = volume.split(":")`: the daemon-side (host
side) of a volume mount string. -/
def daemonsideData (v : List Char) : List Char :=
  (splitOnChar ':' v).headD []

/-- `":".join(items[1:])`: the container side of a volume mount string. -/
def containersideData (v : List Char) : List Char :=
  joinChar ':' (splitOnChar ':' v).tail

/-- The body of hack 1 of `anchored` for one volume string `v` given the
anchor directory `dir` (the parent of the docker-compose.yml path): if
the daemon side starts with `./`, rewrite it to `{dir}/{rest}` and
re-join with the container side; otherwise leave the string as it is. -/
def anchorVolumeData (dir v : List Char) : List Char :=
  if (daemonsideData v).take 2 = ['.', '/'] then
    (dir ++ '/' :: (daemonsideData v).drop 2) ++ ':' :: containersideData v
  else v

/-- `anchorVolumeData` lifted to `String`. -/
def anchorVolume (dir v : String) : String :=
  ⟨anchorVolumeData dir.data v.data⟩

/-- Hack 1 of `anchored` applied to one service definition: every entry
of the `volumes` list is rewritten by `anchorVolume`; a service without
a `volumes` key is skipped (the `except KeyError: pass`). -/
def anchorServiceVolumes (dir : String) (sd : ServiceDef) : ServiceDef :=
  { sd with volumes := sd.volumes.map (List.map (anchorVolume dir)) }

/-- The template `anchored` writes as the external name of the shared
network (the document stores it unsubstituted). -/
def conductoTemplate : String :=
  "conducto_network_$CONDUCTO_PIPELINE_ID"

/-- The first half of hack 2:
`content.setdefault("networks", {}).setdefault("conducto", {})` followed
by `conducto_network["external"] = ...` — ensure a `conducto` entry
exists in the top-level networks dict and set its `external` name to the
template (an existing entry keeps its position; a new one is appended). -/
def setConductoNetwork (m : List (String × NetworkDef)) : List (String × NetworkDef) :=
  if m.any (fun kv => kv.1 = "conducto") then
    m.map (fun kv => if kv.1 = "conducto" then (kv.1, ⟨some conductoTemplate⟩) else kv)
  else m ++ [("conducto", ⟨some conductoTemplate⟩)]

/-- The per-service half of hack 2:
`service_def.setdefault("networks", [])` then append `"conducto"` if it
is not already in the list. -/
def addConductoNetwork (sd : ServiceDef) : ServiceDef :=
  let ns := sd.networks.getD []
  { sd with networks := some (if "conducto" ∈ ns then ns else ns ++ ["conducto"]) }

/-- The value `anchored(content, path)` returns: hack 1 (volume
anchoring against `Path(path).parent`) over all services, then hack 2
(the shared `conducto` network added to the top-level networks dict and
to every service's network list). -/
def anchored (content : ComposeDoc) (path : String) : ComposeDoc :=
  let dir := parentDir path
  let services1 := content.services.map (fun nsd => (nsd.1, anchorServiceVolumes dir nsd.2))
  let networks1 := setConductoNetwork (content.networks.getD [])
  let services2 := services1.map (fun nsd => (nsd.1, addConductoNetwork nsd.2))
  { services := services2, networks := some networks1 }

/-- The state of the ORIGINAL `content` argument after `anchored`
returns.  `anchored` starts with `content = content.copy()`, a SHALLOW
copy: the copy's `services` value is the very same dict object as the
original's, and so are all nested service definitions, volume lists and
network lists.  Hence every in-place update hack 1 and hack 2 perform on
those nested objects (rewriting `service_def["volumes"][i]`, the
`setdefault("networks", [])` on a service dict, the `append("conducto")`)
is visible through the original document, and so is every update to a
pre-existing top-level `networks` dict (which the copy aliases).  The
only write the original does NOT see is the insertion of a `networks`
key into the top-level copy when the original had none, because
`setdefault` then installs the fresh dict in the copy alone. -/
def anchoredPost (content : ComposeDoc) (path : String) : ComposeDoc :=
  { services := (anchored content path).services,
    networks :=
      match content.networks with
      | none => none
      | some _ => (anchored content path).networks }

/-- The document that `stage(host_compose, image_compose, volumes)`
writes to the staged file, as a function of the parsed source document:
`altered = anchored(content, host_compose)`.  The `volumes` parameter is
accepted by `stage` but never referenced anywhere in its body, exactly
as in the source. -/
def stageContent (content : ComposeDoc) (host_compose : String)
    (volumes : List (String × String)) : ComposeDoc :=
  anchored content host_compose

/-! ## compose.py: `ip` and `examine` -/

/-- The namedtuple `IPs = namedtuple("IPs", "conducto others")`. -/
structure IPs where
  conducto : String
  others : List String
deriving DecidableEq

/-- The message of the exception `ip` raises when no usable conducto
network was found. -/
def mkIpError (pipeline_id : String) (network_names : List String) : String :=
  "CONDUCTO_PIPELINE_ID = " ++ pipeline_id ++
    ", but no matching network was found among " ++ jsonList network_names

/-- One iteration of the `for name, network in ...Networks.items()` loop
of `ip`: accumulate (conducto, others, network_names).  The name is
always recorded; if it contains the pipeline id the conducto IP is
overwritten, otherwise the IP is appended to `others`. -/
def ipStep (pipeline_id : String)
    (acc : Option String × List String × List String)
    (nn : String × String) : Option String × List String × List String :=
  (if strContains pipeline_id nn.1 then some nn.2 else acc.1,
   if strContains pipeline_id nn.1 then acc.2.1 else acc.2.1 ++ [nn.2],
   acc.2.2 ++ [nn.1])

/-- The whole loop of `ip`, starting from
`conducto = None; others = []; network_names = []`. -/
def ipScan (pipeline_id : String) (nets : List (String × String)) :
    Option String × List String × List String :=
  nets.foldl (ipStep pipeline_id) (none, [], [])

/-- The result of `ip`, as a function of the pipeline id (read from
`CONDUCTO_PIPELINE_ID`) and the `NetworkSettings.Networks` mapping
(network name, IPAddress) of the stashed inspection record: run the
loop, then `if not conducto: raise ...` — i.e. fail when `conducto` is
still `None` or is the (falsy) empty string — else return the
namedtuple. -/
def ipResult (pipeline_id : String) (nets : List (String × String)) : Except String IPs :=
  let s := ipScan pipeline_id nets
  match s.1 with
  | none => Except.error (mkIpError pipeline_id s.2.2)
  | some c =>
    if c = "" then Except.error (mkIpError pipeline_id s.2.2)
    else Except.ok ⟨c, s.2.1⟩

/-- The slice of a docker inspection record that compose.py reads:
`Name`, `State.Status`, and `NetworkSettings.Networks` as an ordered
list of (network name, IPAddress). -/
structure Inspection where
  name : String
  status : String
  networks : List (String × String)
deriving DecidableEq

/-- Serialization of the (modelled slice of the) inspection record, as
`json.dumps` renders the corresponding Python dict. -/
def inspSerialize (insp : Inspection) : String :=
  "\x7b\"Name\": " ++ jsonStr insp.name ++
    ", \"State\": \x7b\"Status\": " ++ jsonStr insp.status ++ "\x7d" ++
    ", \"NetworkSettings\": \x7b\"Networks\": \x7b" ++
    String.intercalate (", ") (insp.networks.map (fun nn =>
      jsonStr nn.1 ++ ": \x7b\"IPAddress\": " ++ jsonStr nn.2 ++ "\x7d")) ++
    "\x7d\x7d\x7d"

/-- What `examine` does for one matched service (the body of the
`if service_name in container_name` branch): the ordered list of
(key, value) writes to the pipeline store, and the error message if the
`ip` call inside the `status == "running"` branch raises (writes made
before the raise have already happened).  String data is stored raw and
non-string data as its `json.dumps` rendering, per
`_store_container_info`. -/
def examineService (pipeline_id service_name : String) (insp : Inspection) :
    List (String × String) × Option String :=
  let base :=
    [("/services/" ++ service_name ++ "/inspect", inspSerialize insp),
     ("/services/" ++ service_name ++ "/status", insp.status)]
  if insp.status = "running" then
    match ipResult pipeline_id insp.networks with
    | Except.error e => (base, some e)
    | Except.ok ips =>
      (base ++
        [("/services/" ++ service_name ++ "/ip/others", jsonList ips.others),
         ("/services/" ++ service_name ++ "/ip/conducto", ips.conducto)],
       none)
  else (base, none)

/-! ## pipeline.py: task nodes and `lazy_tests` -/

/-- The task-node shapes pipeline.py's `lazy_tests` builds: `co.Exec`
leaves and a `co.Parallel` composite holding labelled children in
insertion order. -/
inductive TaskNode where
  | exec : String → TaskNode
  | parallel : List (String × TaskNode) → TaskNode

/-- The labelled children of a node (a leaf has none). -/
def TaskNode.children : TaskNode → List (String × TaskNode)
  | TaskNode.exec _ => []
  | TaskNode.parallel cs => cs

/-- `lazy_tests` as in pipeline.py, parameterized by `ipOf`, the
function abstracting `compose.ip(name).conducto` (a read of the
`/services/<name>/ip/conducto` fact from the pipeline store, assuming it
resolves).  The loop body reads — literally — `compose.ip("st2api")`:
the loop variable `service` is used only in the node label. -/
def lazy_tests (ipOf : String → String) : TaskNode :=
  TaskNode.parallel (["st2api", "st2auth"].map (fun service =>
    ("ping " ++ service, TaskNode.exec ("ping -c 2 " ++ ipOf ("st2api")))))

/-! ## Helper lemmas -/

/-- Splitting a list that starts with a non-separator character:
the head component gains that character. -/
theorem daemonsideData_cons (c : Char) (l : List Char) (hc : ¬ c = ':') :
    daemonsideData (c :: l) = c :: daemonsideData l := by
  simp [daemonsideData, splitOnChar, hc]

/-- A volume string whose daemon side starts with `/` is not rewritten
by `anchorVolumeData`. -/
theorem anchorVolumeData_slash (dir : List Char) (v : List Char)
    (hv : ∃ t, v = '/' :: t) : anchorVolumeData dir v = v := by
  obtain ⟨t, rfl⟩ := hv
  have hd : daemonsideData ('/' :: t) = '/' :: daemonsideData t :=
    daemonsideData_cons '/' t (by decide)
  simp [anchorVolumeData, hd]

/-- Rewriting a volume twice is the same as rewriting it once, provided
the anchor directory starts with `/` (the rewritten string then starts
with `/`, so its daemon side no longer starts with `./`). -/
theorem anchorVolumeData_idem (dir v : List Char)
    (hdir : ∃ d, dir = '/' :: d) :
    anchorVolumeData dir (anchorVolumeData dir v) = anchorVolumeData dir v := by
  by_cases hcond : (daemonsideData v).take 2 = ['.', '/']
  · obtain ⟨d, rfl⟩ := hdir
    have hw : anchorVolumeData ('/' :: d) v =
        '/' :: (d ++ '/' :: (daemonsideData v).drop 2 ++ ':' :: containersideData v) := by
      simp [anchorVolumeData, hcond]
    rw [hw]
    exact anchorVolumeData_slash _ _ ⟨_, rfl⟩
  · simp [anchorVolumeData, hcond]

/-- `anchorVolume` version of `anchorVolumeData_idem`. -/
theorem anchorVolume_idem (dir v : String) (hdir : ∃ d, dir.data = '/' :: d) :
    anchorVolume dir (anchorVolume dir v) = anchorVolume dir v := by
  cases v with
  | mk vdata =>
    apply congrArg String.mk
    exact anchorVolumeData_idem dir.data vdata hdir

/-- The `network_names` accumulator of the `ip` loop always ends up
holding every network name, in order. -/
theorem ipScan_names (pid : String) (nets : List (String × String)) :
    ∀ acc, (List.foldl (ipStep pid) acc nets).2.2 = acc.2.2 ++ nets.map Prod.fst := by
  induction nets with
  | nil => intro acc; simp
  | cons hd tl ih =>
    intro acc
    simp only [List.foldl_cons, List.map_cons]
    rw [ih]
    simp [ipStep]

/-- If no network name contains the pipeline id, the `conducto`
accumulator is never written. -/
theorem ipScan_conducto_nomatch (pid : String) (nets : List (String × String))
    (h : ∀ p ∈ nets, strContains pid p.1 = false) :
    ∀ acc, (List.foldl (ipStep pid) acc nets).1 = acc.1 := by
  induction nets with
  | nil => intro acc; simp
  | cons hd tl ih =>
    intro acc
    simp only [List.foldl_cons]
    rw [ih (fun p hp => h p (List.mem_cons_of_mem hd hp))]
    simp [ipStep, h hd (List.mem_cons_self hd tl)]

/-- If every network whose name contains the pipeline id carries an
empty `IPAddress`, the `conducto` accumulator stays `None` or becomes
the empty string. -/
theorem ipScan_conducto_empty (pid : String) (nets : List (String × String))
    (h : ∀ p ∈ nets, strContains pid p.1 = true → p.2 = "") :
    ∀ acc, acc.1 = none ∨ acc.1 = some "" →
      (List.foldl (ipStep pid) acc nets).1 = none ∨
        (List.foldl (ipStep pid) acc nets).1 = some "" := by
  induction nets with
  | nil => intro acc hacc; simpa using hacc
  | cons hd tl ih =>
    intro acc hacc
    simp only [List.foldl_cons]
    apply ih (fun p hp => h p (List.mem_cons_of_mem hd hp))
    by_cases hm : strContains pid hd.1 = true
    · right
      simp [ipStep, hm, h hd (List.mem_cons_self hd tl) hm]
    · simp only [Bool.not_eq_true] at hm
      simpa [ipStep, hm] using hacc

/-! ## Claims -/

/-- Claim C1: calling `anchored` on a document and an anchor path was
claimed to leave the input document unchanged.  It does not: the copy is
shallow, so the in-place rewrites reach the original.  At the concrete
input below (one service `web` with volume `./data:/data`, no networks),
after the call the original's service definition has its volume
rewritten and the `conducto` network appended, contradicting the claim
(and the code's own `# don't alter the original` comment). -/
theorem spec_C1 :
    anchoredPost ⟨[("web", ⟨some ["./data:/data"], none⟩)], none⟩
        ("/host/proj/docker-compose.yml") =
      ⟨[("web", ⟨some ["/host/proj/data:/data"], some ["conducto"]⟩)], none⟩ ∧
    anchoredPost ⟨[("web", ⟨some ["./data:/data"], none⟩)], none⟩
        ("/host/proj/docker-compose.yml") ≠
      ⟨[("web", ⟨some ["./data:/data"], none⟩)], none⟩ := by
  constructor
  · decide
  · decide

/-- Claim C2: `stage` was claimed to add the mount string supplied in
its `volumes` parameter to the staged output.  It does not: the body of
`stage` never references `volumes`, so the staged document equals
`anchored(content, host_compose)` for every value of `volumes`, and the
concrete override mount below never appears in the staged output. -/
theorem spec_C2 :
    (∀ (content : ComposeDoc) (host_compose : String)
        (volumes : List (String × String)),
        stageContent content host_compose volumes = anchored content host_compose) ∧
    ((stageContent ⟨[("st2api", ⟨some ["./conf:/etc/st2"], none⟩)], none⟩
          ("/host/st2-docker/docker-compose.yml")
          [("st2api", "/dev/st2/st2api/st2api:/opt/site-packages/st2api")]).services.all
        (fun nsd =>
          !((nsd.2.volumes.getD []).contains
            ("/dev/st2/st2api/st2api:/opt/site-packages/st2api"))) = true) := by
  constructor
  · intro content host_compose volumes
    rfl
  · decide

/-- Claim C5: on an inspection record with exactly two networks — one
whose name contains the pipeline id, carrying IP `10.0.0.5`, and one
other, carrying `172.17.0.2` — `ip` returns the partition with
`conducto = "10.0.0.5"` and `others = ["172.17.0.2"]`. -/
theorem spec_C5 :
    ipResult ("pipelineX")
        [("conducto_network_pipelineX", "10.0.0.5"), ("bridge", "172.17.0.2")] =
      Except.ok ⟨"10.0.0.5", ["172.17.0.2"]⟩ := rfl

/-- Claim C6: when no network name contains the pipeline id, `ip` raises
(returns no partition), and the exception message is built from the
pipeline id and the full list of examined network names. -/
theorem spec_C6 (pid : String) (nets : List (String × String))
    (h : ∀ p ∈ nets, strContains pid p.1 = false) :
    ipResult pid nets = Except.error (mkIpError pid (nets.map Prod.fst)) := by
  have h1 := ipScan_conducto_nomatch pid nets h (none, [], [])
  have h2 := ipScan_names pid nets (none, [], [])
  simp only [ipResult, ipScan] at h1 h2 ⊢
  rw [h1, h2]
  simp

/-- Witness for C6 at a concrete input. -/
theorem spec_C6_witness :
    ipResult ("abc") [("bridge", "172.17.0.2")] =
      Except.error (mkIpError ("abc") ["bridge"]) :=
  spec_C6 ("abc") [("bridge", "172.17.0.2")] (by decide)

/-- Claim C9 as stated is false: a record can contain a network whose
name contains the pipeline id with an empty `IPAddress` and still not
raise, because a later matching network overwrites the `conducto`
accumulator.  Concretely, with pipeline id `pid` and matching networks
`conducto_pid_a` (empty IP) and `conducto_pid_b` (IP `10.0.0.5`), `ip`
succeeds. -/
theorem spec_C9_counterexample :
    strContains ("pid") ("conducto_pid_a") = true ∧
    ipResult ("pid") [("conducto_pid_a", ""), ("conducto_pid_b", "10.0.0.5")] =
      Except.ok ⟨"10.0.0.5", []⟩ := by
  constructor
  · rfl
  · rfl

/-- Claim C9, amended: if every network whose name contains the pipeline
id records an empty `IPAddress` (in particular when the record's only
matching network does), `ip` raises — with exactly the same
no-matching-network message as the zero-match case, so the two cases are
indistinguishable at the public interface. -/
theorem spec_C9_amended (pid : String) (nets : List (String × String))
    (hmatch : ∃ p ∈ nets, strContains pid p.1 = true)
    (hempty : ∀ p ∈ nets, strContains pid p.1 = true → p.2 = "") :
    ipResult pid nets = Except.error (mkIpError pid (nets.map Prod.fst)) := by
  have h1 := ipScan_conducto_empty pid nets hempty (none, [], []) (Or.inl rfl)
  have h2 := ipScan_names pid nets (none, [], [])
  simp only [ipScan] at h1 h2
  rcases h1 with h1 | h1
  · simp only [ipResult, ipScan]
    rw [h1, h2]
    simp
  · simp only [ipResult, ipScan]
    rw [h1, h2]
    simp

/-- Witness for the amended C9 at a concrete input. -/
theorem spec_C9_amended_witness :
    ipResult ("pid") [("conducto_pid", "")] =
      Except.error (mkIpError ("pid") ["conducto_pid"]) :=
  spec_C9_amended ("pid") [("conducto_pid", "")]
    ⟨("conducto_pid", ""), by decide, by decide⟩ (by decide)

/-- Claim C10: every ping node `lazy_tests` builds embeds the conducto
IP of `st2api` — the node labelled `ping st2auth` included — because the
loop body reads `compose.ip("st2api")` rather than
`compose.ip(service)`. -/
theorem spec_C10 (ipOf : String → String) :
    (lazy_tests ipOf).children.map Prod.fst = ["ping st2api", "ping st2auth"] ∧
    ∀ c ∈ (lazy_tests ipOf).children,
      c.2 = TaskNode.exec ("ping -c 2 " ++ ipOf ("st2api")) := by
  constructor
  · rfl
  · intro c hc
    simp only [lazy_tests, TaskNode.children, List.map_cons, List.map_nil,
      List.mem_cons, List.not_mem_nil, or_false] at hc
    rcases hc with rfl | rfl
    · rfl
    · rfl

/-- Witness for C10 at a concrete IP lookup function. -/
theorem spec_C10_witness :
    (("ping " ++ "st2auth",
        TaskNode.exec ("ping -c 2 " ++ (fun _ => "10.0.0.5") ("st2api"))) :
      String × TaskNode).2 =
      TaskNode.exec ("ping -c 2 " ++ (fun _ => "10.0.0.5") ("st2api")) :=
  (spec_C10 (fun _ => "10.0.0.5")).2
    ("ping " ++ "st2auth",
      TaskNode.exec ("ping -c 2 " ++ (fun _ => "10.0.0.5") ("st2api")))
    (List.mem_cons_of_mem _ (List.mem_cons_self _ _))

/-- Two strings with a common prefix and suffixes of different lengths
differ. -/
theorem append_ne_of_length_ne (a b c : String) (h : ¬ b.length = c.length) :
    ¬ a ++ b = a ++ c := by
  intro he
  apply h
  have hl := congrArg String.length he
  simp only [String.length_append] at hl
  omega

/-- Claim C3 as stated is false: even for a running, resolvable service
no value is ever persisted under `/services/<name>/ip/primary` — the
code stores the primary IP under `/services/<name>/ip/conducto`.
Concretely, for service `st2api` with status `running` and one matching
network, the persisted keys are `inspect`, `status`, `ip/others` and
`ip/conducto`, and `ip/primary` is not among them. -/
theorem spec_C3_counterexample :
    (examineService ("pid") ("st2api")
        ⟨"/st2api_1", "running", [("net_pid", "10.0.0.5")]⟩).1.map Prod.fst =
      ["/services/st2api/inspect", "/services/st2api/status",
       "/services/st2api/ip/others", "/services/st2api/ip/conducto"] ∧
    ¬ ("/services/st2api/ip/primary" ∈
        (examineService ("pid") ("st2api")
          ⟨"/st2api_1", "running", [("net_pid", "10.0.0.5")]⟩).1.map Prod.fst) := by
  constructor
  · decide
  · decide

/-- Claim C3, amended: the IP facts of a matched service are persisted
under the keys `/services/<name>/ip/conducto` and
`/services/<name>/ip/others`, and they are persisted exactly when the
service's status is `"running"` and the IP partition resolves (when the
status is `"running"` but `ip` raises, the raise happens before the two
stores). -/
theorem spec_C3_amended (pid name : String) (insp : Inspection) :
    ((("/services/" ++ name ++ "/ip/conducto") ∈
        (examineService pid name insp).1.map Prod.fst) ∧
     (("/services/" ++ name ++ "/ip/others") ∈
        (examineService pid name insp).1.map Prod.fst))
    ↔ (insp.status = "running" ∧ ∃ ips, ipResult pid insp.networks = Except.ok ips) := by
  have hne1 : ¬ ("/services/" ++ name ++ "/ip/conducto") =
      ("/services/" ++ name ++ "/inspect") :=
    append_ne_of_length_ne _ _ _ (by decide)
  have hne2 : ¬ ("/services/" ++ name ++ "/ip/conducto") =
      ("/services/" ++ name ++ "/status") :=
    append_ne_of_length_ne _ _ _ (by decide)
  have hne3 : ¬ ("/services/" ++ name ++ "/ip/others") =
      ("/services/" ++ name ++ "/inspect") :=
    append_ne_of_length_ne _ _ _ (by decide)
  have hne4 : ¬ ("/services/" ++ name ++ "/ip/others") =
      ("/services/" ++ name ++ "/status") :=
    append_ne_of_length_ne _ _ _ (by decide)
  by_cases hs : insp.status = "running"
  · cases hip : ipResult pid insp.networks with
    | error e =>
      simp [examineService, hs, hip, hne1, hne2, hne3, hne4]
    | ok ips =>
      simp [examineService, hs, hip, hne1, hne2, hne3, hne4]
  · simp [examineService, hs, hne1, hne2, hne3, hne4]

/-- Claim C4: (1) a service whose only volume entry is `./data:/data`,
anchored against spec directory `/host/proj` (i.e. a compose file at
`/host/proj/docker-compose.yml`), comes out of `anchored` with the
single mount string `/host/proj/data:/data`; (2) any mount string whose
host (daemon) side does not begin with `./` is left unchanged by the
volume rewrite, for every anchor directory. -/
theorem spec_C4 :
    (∀ (d : ComposeDoc) (i : Nat) (n : String) (sd : ServiceDef),
        d.services[i]? = some (n, sd) →
        sd.volumes = some ["./data:/data"] →
        ((anchored d ("/host/proj/docker-compose.yml")).services[i]?).map
          (fun nsd => nsd.2.volumes) = some (some ["/host/proj/data:/data"])) ∧
    (∀ (dir v : String),
        ¬ (daemonsideData v.data).take 2 = ['.', '/'] →
        anchorVolume dir v = v) := by
  constructor
  · intro d i n sd hi hv
    simp only [anchored, List.getElem?_map, hi, Option.map_some',
      addConductoNetwork, anchorServiceVolumes, hv]
    decide
  · intro dir v h
    cases v with
    | mk vd =>
      apply congrArg String.mk
      simp only [anchorVolumeData]
      rw [if_neg h]

/-- Witness for C4 at a concrete document and a concrete unanchored
mount string. -/
theorem spec_C4_witness :
    ((anchored ⟨[("web", ⟨some ["./data:/data"], none⟩)], none⟩
          ("/host/proj/docker-compose.yml")).services[0]?).map
        (fun nsd => nsd.2.volumes) = some (some ["/host/proj/data:/data"]) ∧
    anchorVolume ("/host/proj") ("/abs/conf:/etc/st2") = "/abs/conf:/etc/st2" :=
  ⟨spec_C4.1 ⟨[("web", ⟨some ["./data:/data"], none⟩)], none⟩ 0 ("web")
      ⟨some ["./data:/data"], none⟩ (by decide) (by decide),
   spec_C4.2 ("/host/proj") ("/abs/conf:/etc/st2") (by decide)⟩

/-- Claim C7: in the output of `anchored`, every service's network list
contains `"conducto"` exactly once — whether the input service had no
`networks` key, a list without `"conducto"`, or a list already
containing it (once; the compose data model keeps network names a set,
so an input list never repeats a name). -/
theorem spec_C7 (d : ComposeDoc) (p : String) (i : Nat) (n : String) (sd : ServiceDef)
    (hi : d.services[i]? = some (n, sd))
    (hcount : (sd.networks.getD []).count ("conducto") ≤ 1) :
    ((anchored d p).services[i]?).map
      (fun nsd => (nsd.2.networks.getD []).count ("conducto")) = some 1 := by
  simp only [anchored, List.getElem?_map, hi, Option.map_some',
    addConductoNetwork, anchorServiceVolumes]
  by_cases hmem : ("conducto" : String) ∈ sd.networks.getD []
  · have hpos : 0 < (sd.networks.getD []).count ("conducto") :=
      List.count_pos_iff.mpr hmem
    simp only [hmem, if_true, Option.getD_some, Option.some.injEq]
    omega
  · simp [hmem, List.count_append, List.count_eq_zero.mpr hmem]

/-- Witness for C7 at three concrete services: no networks key, a list
without the shared network, and a list already containing it. -/
theorem spec_C7_witness :
    ((anchored ⟨[("a", ⟨none, none⟩), ("b", ⟨none, some ["x"]⟩),
        ("c", ⟨none, some ["conducto"]⟩)], none⟩ ("/h/f.yml")).services[2]?).map
      (fun nsd => (nsd.2.networks.getD []).count ("conducto")) = some 1 :=
  spec_C7 ⟨[("a", ⟨none, none⟩), ("b", ⟨none, some ["x"]⟩),
      ("c", ⟨none, some ["conducto"]⟩)], none⟩ ("/h/f.yml") 2 ("c")
    ⟨none, some ["conducto"]⟩ (by decide) (by decide)

/-- Applying hack 1 then hack 2 twice to one service entry is the same
as applying them once, provided the anchor directory starts with `/`. -/
theorem serviceStep_idem (dir : String) (hdir : ∃ t, dir.data = '/' :: t)
    (sd : ServiceDef) :
    addConductoNetwork (anchorServiceVolumes dir
        (addConductoNetwork (anchorServiceVolumes dir sd))) =
      addConductoNetwork (anchorServiceVolumes dir sd) := by
  cases sd with
  | mk vols nets =>
    have hvols : (vols.map (List.map (anchorVolume dir))).map (List.map (anchorVolume dir)) =
        vols.map (List.map (anchorVolume dir)) := by
      cases vols with
      | none => rfl
      | some l =>
        simp only [Option.map_some', Option.some.injEq, List.map_map]
        apply List.map_congr_left
        intro v _
        show anchorVolume dir (anchorVolume dir v) = anchorVolume dir v
        exact anchorVolume_idem dir v hdir
    have hns : ∀ ns : List String,
        ("conducto" : String) ∈ (if ("conducto" : String) ∈ ns then ns else ns ++ ["conducto"]) := by
      intro ns
      by_cases hm : ("conducto" : String) ∈ ns
      · simpa [hm]
      · simp [hm]
    simp only [anchorServiceVolumes, addConductoNetwork, Option.getD_some]
    rw [if_pos (hns (nets.getD []))]
    rw [hvols]

/-- Running the top-level-networks half of hack 2 twice is the same as
running it once. -/
theorem setConductoNetwork_idem (m : List (String × NetworkDef)) :
    setConductoNetwork (setConductoNetwork m) = setConductoNetwork m := by
  by_cases h : m.any (fun kv => kv.1 = "conducto") = true
  · have hany2 : (m.map (fun kv =>
        if kv.1 = "conducto" then (kv.1, (⟨some conductoTemplate⟩ : NetworkDef)) else kv)).any
          (fun kv => kv.1 = "conducto") = true := by
      obtain ⟨kv, hkv, hc⟩ := List.any_eq_true.mp h
      apply List.any_eq_true.mpr
      refine ⟨if kv.1 = "conducto" then (kv.1, (⟨some conductoTemplate⟩ : NetworkDef)) else kv,
        List.mem_map_of_mem _ hkv, ?_⟩
      simp only [decide_eq_true_eq] at hc
      simp [hc]
    simp only [setConductoNetwork, h, if_true, hany2, List.map_map]
    apply List.map_congr_left
    intro kv _
    by_cases hkv : kv.1 = "conducto"
    · simp [hkv]
    · simp [hkv]
  · have hm : ∀ kv ∈ m, ¬ (kv.1 = "conducto") := by
      intro kv hkv hc
      apply h
      exact List.any_eq_true.mpr ⟨kv, hkv, by simp [hc]⟩
    have hany2 : (m ++ [("conducto", (⟨some conductoTemplate⟩ : NetworkDef))]).any
        (fun kv => kv.1 = "conducto") = true := by
      apply List.any_eq_true.mpr
      exact ⟨("conducto", ⟨some conductoTemplate⟩), by simp, by simp⟩
    have hmap : m.map (fun kv =>
        if kv.1 = "conducto" then (kv.1, (⟨some conductoTemplate⟩ : NetworkDef)) else kv) = m := by
      have hid : m.map (fun kv =>
          if kv.1 = "conducto" then (kv.1, (⟨some conductoTemplate⟩ : NetworkDef)) else kv) =
          m.map id :=
        List.map_congr_left (fun kv hkv => by simp [hm kv hkv])
      simpa using hid
    simp only [setConductoNetwork]
    rw [if_neg h, if_pos hany2, List.map_append, hmap]
    simp

/-- Claim C8: `anchored` is deterministic (equal inputs give equal
output — it is a pure function of its two arguments) and idempotent:
re-anchoring its own output with the same path reproduces that output,
provided the anchor directory is absolute (starts with `/`), which is
what the `path` docstring requires. -/
theorem spec_C8 (d : ComposeDoc) (p : String)
    (hdir : ∃ t, (parentDir p).data = '/' :: t) :
    anchored d p = anchored d p ∧
    anchored (anchored d p) p = anchored d p := by
  refine ⟨rfl, ?_⟩
  simp only [anchored, Option.getD_some]
  congr 1
  · rw [List.map_map, List.map_map, List.map_map, List.map_map]
    apply List.map_congr_left
    intro x _
    show (x.1, addConductoNetwork (anchorServiceVolumes (parentDir p)
        (addConductoNetwork (anchorServiceVolumes (parentDir p) x.2)))) =
      (x.1, addConductoNetwork (anchorServiceVolumes (parentDir p) x.2))
    exact congrArg (fun y => (x.1, y)) (serviceStep_idem (parentDir p) hdir x.2)
  · exact congrArg some (setConductoNetwork_idem _)

/-- Witness for C8 at a concrete document and path. -/
theorem spec_C8_witness :
    anchored (anchored ⟨[("web", ⟨some ["./data:/data"], some ["x"]⟩)],
          some [("x", ⟨none⟩)]⟩ ("/host/proj/docker-compose.yml"))
        ("/host/proj/docker-compose.yml") =
      anchored ⟨[("web", ⟨some ["./data:/data"], some ["x"]⟩)],
          some [("x", ⟨none⟩)]⟩ ("/host/proj/docker-compose.yml") :=
  (spec_C8 ⟨[("web", ⟨some ["./data:/data"], some ["x"]⟩)], some [("x", ⟨none⟩)]⟩
    ("/host/proj/docker-compose.yml") ⟨("host/proj").data, by decide⟩).2
